import Mathlib

/-!
Shallow embedding of the post-ranking, search and pagination utilities of the
react-blog repository (src/utils/searchUtils.ts, src/utils/paginationUtils.ts,
and the related-posts utilities), together with theorems settling the claims
about this subsystem.  Numbers that are JavaScript `number`s are modelled as
exact rationals (ℚ) / integers (ℤ); strings that the algorithms traverse
character by character are modelled as `List Char`.
-/

namespace Blog

/-- Author record: slug identifier plus display name (src/types). -/
structure Author where
  slug : String
  name : String
deriving DecidableEq, Repr

/-- Category record: slug identifier plus display name (src/types). -/
structure Category where
  slug : String
  name : String
deriving DecidableEq, Repr

/-- Post record as used by the ranking utilities.  `publishedAt` is the
millisecond timestamp that `new Date(post.publishedAt).getTime()` yields. -/
structure BlogPost where
  id : String
  title : String
  excerpt : String
  content : String
  publishedAt : ℤ
  author : Author
  categories : List Category
  tags : List String
  featured : Bool
deriving DecidableEq, Repr

/-! ## Pagination utilities (src/utils/paginationUtils.ts) -/

/-- ECMAScript `Array.prototype.slice(start, end)`: negative indices count
from the end of the array, then both are clamped to `[0, length]`. -/
def jsSlice {α : Type} (xs : List α) (s e : ℤ) : List α :=
  let len : ℤ := xs.length
  let rs : ℤ := if s < 0 then max (len + s) 0 else min s len
  let re : ℤ := if e < 0 then max (len + e) 0 else min e len
  (xs.take re.toNat).drop rs.toNat

/-- `getPaginatedPosts`: slice of the post list for the current page
(paginationUtils.ts lines 57-70). -/
def getPaginatedPosts (posts : List BlogPost) (currentPage postsPerPage : ℤ) :
    List BlogPost :=
  let startIndex := (currentPage - 1) * postsPerPage
  let endIndex := startIndex + postsPerPage
  jsSlice posts startIndex endIndex

/-- Item of the page-number strip: a page number or an ellipsis marker. -/
inductive PageItem where
  | page (n : ℤ)
  | ellipsis
deriving DecidableEq, Repr

/-- The integers from `a` to `b` inclusive (empty when `b < a`), as produced
by `for (let i = a; i <= b; i++)`. -/
def rangeInt (a b : ℤ) : List ℤ :=
  (List.range (b + 1 - a).toNat).map (fun (i : ℕ) => a + (i : ℤ))

/-- `generatePageNumbers` (paginationUtils.ts lines 76-124): page-number strip
with ellipsis compression.  `halfVisible = Math.floor(maxVisiblePages / 2)`. -/
def generatePageNumbers (currentPage totalPages : ℤ) (maxVisiblePages : ℤ) :
    List PageItem :=
  if totalPages ≤ maxVisiblePages then
    (rangeInt 1 totalPages).map .page
  else
    let halfVisible := maxVisiblePages / 2
    let lead : List PageItem := [.page 1]
    let firstGap : List PageItem :=
      if halfVisible + 1 < currentPage then [.ellipsis] else []
    let startPage0 := max 2 (currentPage - halfVisible)
    let endPage0 := min (totalPages - 1) (currentPage + halfVisible)
    let endPage := if currentPage ≤ halfVisible + 1 then maxVisiblePages - 1 else endPage0
    let startPage :=
      if totalPages - halfVisible ≤ currentPage then totalPages - maxVisiblePages + 2
      else startPage0
    let middle := (rangeInt startPage endPage).map PageItem.page
    let secondGap : List PageItem :=
      if endPage < totalPages - 1 then [.ellipsis] else []
    let trail : List PageItem := if 1 < totalPages then [.page totalPages] else []
    lead ++ firstGap ++ middle ++ secondGap ++ trail

/-! ## Search utilities (src/utils/searchUtils.ts) -/

/-- Lowercase a character sequence (`String.prototype.toLowerCase` on the
ASCII inputs this subsystem handles). -/
def toLower (s : List Char) : List Char := s.map Char.toLower

/-- A `\w` character of the JavaScript regexp used by `tokenize`. -/
def isWordChar (c : Char) : Bool :=
  (('a' ≤ c && c ≤ 'z') || ('A' ≤ c && c ≤ 'Z') || ('0' ≤ c && c ≤ '9') || c = '_')

/-- `tokenize` (searchUtils.ts lines 96-102): lowercase, replace punctuation
by spaces, split on whitespace, keep words longer than 2 characters. -/
def tokenize (text : List Char) : List (List Char) :=
  let cleaned := (toLower text).map (fun c => if isWordChar c || c.isWhitespace then c else ' ')
  (cleaned.splitOnP (·.isWhitespace)).filter (fun w => 2 < w.length)

/-- One row update of the Levenshtein dynamic-programming matrix
(searchUtils.ts lines 79-88): given the previous row (`p0 :: p1 :: …`) and the
entry to the left, produce the entries `matrix[j][1..]`. -/
def levRowGo (bj : Char) : List Char → List ℕ → ℕ → List ℕ
  | ai :: arest, p0 :: p1 :: prest, left =>
    let cost : ℕ := if ai = bj then 0 else 1
    let v := min (left + 1) (min (p1 + 1) (p0 + cost))
    v :: levRowGo bj arest (p1 :: prest) v
  | _, _, _ => []

/-- `levenshteinDistance` (searchUtils.ts lines 68-91): classic
dynamic-programming edit distance, row by row over `b`. -/
def levenshteinDistance (a b : List Char) : ℕ :=
  let row0 := List.range (a.length + 1)
  let final := b.foldl
    (fun (st : List ℕ × ℕ) bj =>
      let j := st.2 + 1
      (j :: levRowGo bj a st.1 j, j))
    (row0, 0)
  final.1.getLastD 0

/-- `similarity` (searchUtils.ts lines 56-63): normalized edit-distance
similarity in [0,1]; the `a === b` short-circuit is case sensitive, the
distance is computed on the lowercased strings. -/
def similarity (a b : List Char) : ℚ :=
  if a = b then 1
  else if a.length = 0 ∨ b.length = 0 then 0
  else 1 - (levenshteinDistance (toLower a) (toLower b) : ℚ) / (max a.length b.length : ℕ)

/-- Join a list of words with single spaces (`Array.prototype.join(' ')`). -/
def joinSpace (ws : List (List Char)) : List Char :=
  List.intercalate [' '] ws

/-- `getFieldValue` (searchUtils.ts lines 175-192). -/
def getFieldValue (post : BlogPost) (field : String) : List Char :=
  if field = "title" then post.title.toList
  else if field = "excerpt" then post.excerpt.toList
  else if field = "content" then post.content.toList
  else if field = "tags" then joinSpace (post.tags.map String.toList)
  else if field = "categories" then joinSpace (post.categories.map (fun c => c.name.toList))
  else if field = "author" then post.author.name.toList
  else []

/-- `getFieldWeight` (searchUtils.ts lines 197-208). -/
def getFieldWeight (field : String) : ℚ :=
  if field = "title" then 3
  else if field = "tags" then 2
  else if field = "categories" then 1.5
  else if field = "excerpt" then 1.2
  else if field = "author" then 1
  else if field = "content" then 0.8
  else 1

/-- Per-token score against a field value (searchUtils.ts lines 131-133):
edit-distance similarity when fuzzy is on, otherwise 1 for an exact substring
(`fieldValue.includes(token)`) and 0 otherwise. -/
def tokenScore (useFuzzy : Bool) (fieldValue token : List Char) : ℚ :=
  if useFuzzy then similarity fieldValue token
  else if token <:+: fieldValue then 1 else 0

/-- The token loop of `calculateRelevance` (searchUtils.ts lines 127-139):
accumulates token scores that exceed the threshold and remembers the last
accepted token as `bestMatch`. -/
def fieldTokenFold (useFuzzy : Bool) (threshold : ℚ) (fieldValue : List Char)
    (tokens : List (List Char)) : ℚ × List Char :=
  tokens.foldl
    (fun acc token =>
      let ts := tokenScore useFuzzy fieldValue token
      if threshold < ts then (acc.1 + ts, token) else acc)
    (0, [])

/-- Search options, with all defaults resolved (searchUtils.ts lines 12-37). -/
structure SearchOptions where
  fields : List String
  minQueryLength : ℕ
  fuzzy : Bool
  fuzzyThreshold : ℚ
  limit : ℕ
deriving Repr

/-- The default search options. -/
def defaultSearchOptions : SearchOptions :=
  ⟨["title", "excerpt", "content", "tags"], 2, true, 0.6, 10⟩

/-- A per-field match record of a search result. -/
structure MatchRec where
  field : String
  value : List Char
  score : ℚ
deriving DecidableEq, Repr

/-- A search result: post, total score, per-field matches. -/
structure SearchResult where
  post : BlogPost
  score : ℚ
  «matches» : List MatchRec
deriving DecidableEq, Repr

/-- `calculateRelevance` (searchUtils.ts lines 107-170). -/
def calculateRelevance (post : BlogPost) (query : List Char)
    (options : SearchOptions) : SearchResult :=
  let queryTokens := tokenize query
  let base := options.fields.foldl
    (fun (acc : ℚ × List MatchRec) field =>
      let fieldValue := getFieldValue post field
      if fieldValue = [] then acc
      else
        let fs := fieldTokenFold options.fuzzy options.fuzzyThreshold fieldValue queryTokens
        let fieldScore := fs.1 * getFieldWeight field
        if 0 < fieldScore then (acc.1 + fieldScore, acc.2 ++ [⟨field, fs.2, fieldScore⟩])
        else acc)
    (0, [])
  let boosted := if toLower query <:+: toLower post.title.toList then base.1 + 2 else base.1
  let total := if post.featured then boosted + 1 else boosted
  ⟨post, total, base.2⟩

/-- `searchPosts` (searchUtils.ts lines 214-234): relevance per post, drop
non-positive scores, stable sort by score descending, truncate to the limit. -/
def searchPosts (posts : List BlogPost) (query : List Char)
    (options : SearchOptions) : List SearchResult :=
  if query.length < options.minQueryLength then []
  else
    ((List.insertionSort (fun a b => b.score ≤ a.score)
      ((posts.map (fun p => calculateRelevance p query options)).filter
        (fun r => 0 < r.score))).take options.limit)

/-! ## Related-posts utilities (relatedPostsUtils) -/

/-- Related-posts algorithm selector. -/
inductive RelatedAlgorithm where
  | category
  | tags
  | mixed
deriving DecidableEq, Repr

/-- Related-posts configuration, with all defaults resolved. -/
structure RelatedPostsConfig where
  maxPosts : ℕ
  algorithm : RelatedAlgorithm
  excludeCurrentPost : Bool
deriving Repr

/-- The default related-posts configuration: 3 posts, mixed, exclude current. -/
def defaultRelatedPostsConfig : RelatedPostsConfig := ⟨3, .mixed, true⟩

/-- `calculateCategorySimilarity` (relatedPostsUtils lines 141-149): common
slugs counted from A's list, over the size of the deduplicated union. -/
def calculateCategorySimilarity (postA postB : BlogPost) : ℚ :=
  let categoriesA := postA.categories.map (fun c => c.slug)
  let categoriesB := postB.categories.map (fun c => c.slug)
  let commonCategories := categoriesA.filter (fun c => categoriesB.contains c)
  let totalCategories := ((categoriesA ++ categoriesB).dedup).length
  if 0 < totalCategories then (commonCategories.length : ℚ) / totalCategories else 0

/-- `calculateTagSimilarity` (relatedPostsUtils lines 154-162). -/
def calculateTagSimilarity (postA postB : BlogPost) : ℚ :=
  let tagsA := postA.tags
  let tagsB := postB.tags
  let commonTags := tagsA.filter (fun t => tagsB.contains t)
  let totalTags := ((tagsA ++ tagsB).dedup).length
  if 0 < totalTags then (commonTags.length : ℚ) / totalTags else 0

/-- The words of `\x7b title\x7d \x7b excerpt\x7d` lowercased, split on
whitespace, restricted to words longer than 3 characters
(relatedPostsUtils lines 170-174). -/
def contentWords (p : BlogPost) : List (List Char) :=
  let text := toLower ((p.title ++ " " ++ p.excerpt).toList)
  (text.splitOnP (·.isWhitespace)).filter (fun w => 3 < w.length)

/-- `calculateContentSimilarity` (relatedPostsUtils lines 168-180): common
words counted from A's word list (duplicates included), over the size of the
deduplicated union of the two word lists. -/
def calculateContentSimilarity (postA postB : BlogPost) : ℚ :=
  let wordsA := contentWords postA
  let wordsB := contentWords postB
  let commonWords := wordsA.filter (fun w => wordsB.contains w)
  let totalWords := ((wordsA ++ wordsB).dedup).length
  if 0 < totalWords then (commonWords.length : ℚ) / totalWords else 0

/-- `calculateAuthorSimilarity` (relatedPostsUtils lines 185-187). -/
def calculateAuthorSimilarity (postA postB : BlogPost) : ℚ :=
  if postA.author.slug = postB.author.slug then 1 else 0

/-- `calculatePostSimilarity` (relatedPostsUtils lines 112-136): weighted sum
0.4·category + 0.3·tags + 0.2·content + 0.1·author (the `algorithm` argument
is accepted but never read). -/
def calculatePostSimilarity (postA postB : BlogPost) : ℚ :=
  calculateCategorySimilarity postA postB * 0.4
    + calculateTagSimilarity postA postB * 0.3
    + calculateContentSimilarity postA postB * 0.2
    + calculateAuthorSimilarity postA postB * 0.1

/-- `findRelatedPosts` (relatedPostsUtils lines 192-217): score every
candidate, stable sort by score descending, take the first `maxPosts`. -/
def findRelatedPosts (currentPost : BlogPost) (allPosts : List BlogPost)
    (config : RelatedPostsConfig) : List BlogPost :=
  let candidatePosts :=
    if config.excludeCurrentPost then allPosts.filter (fun p => p.id ≠ currentPost.id)
    else allPosts
  let scoredPosts := candidatePosts.map (fun p => (p, calculatePostSimilarity currentPost p))
  ((List.insertionSort (fun a b => b.2 ≤ a.2) scoredPosts).take config.maxPosts).map
    (fun item => item.1)

/-- `findRelatedByCategory` (relatedPostsUtils lines 222-239): posts sharing a
category slug with the current post, newest first. -/
def findRelatedByCategory (currentPost : BlogPost) (allPosts : List BlogPost)
    (maxPosts : ℕ) : List BlogPost :=
  let currentCategories := currentPost.categories.map (fun c => c.slug)
  ((List.insertionSort (fun a b => b.publishedAt ≤ a.publishedAt)
      ((allPosts.filter (fun p => p.id ≠ currentPost.id)).filter
        (fun p => p.categories.any (fun c => currentCategories.contains c.slug)))).take maxPosts)

/-- `findRelatedByTags` (relatedPostsUtils lines 244-261): posts sharing at
least one tag, ranked by shared-tag count descending. -/
def findRelatedByTags (currentPost : BlogPost) (allPosts : List BlogPost)
    (maxPosts : ℕ) : List BlogPost :=
  let currentTags := currentPost.tags
  let withCounts := (allPosts.filter (fun p => p.id ≠ currentPost.id)).map
    (fun p => (p, (p.tags.filter (fun t => currentTags.contains t)).length))
  (((List.insertionSort (fun a b => b.2 ≤ a.2)
      (withCounts.filter (fun item => 0 < item.2))).map (fun item => item.1)).take maxPosts)

/-- `findRecentPosts` (relatedPostsUtils lines 286-297): most recent posts,
excluding `excludePostId` — but only when that string is truthy, i.e.
non-empty (`!excludePostId || post.id !== excludePostId`). -/
def findRecentPosts (allPosts : List BlogPost) (excludePostId : String)
    (maxPosts : ℕ) : List BlogPost :=
  (List.insertionSort (fun a b => b.publishedAt ≤ a.publishedAt)
    (allPosts.filter (fun p => excludePostId = "" ∨ p.id ≠ excludePostId))).take maxPosts

/-- The duplicate-free merge step used by every fallback stage
(relatedPostsUtils lines 321-324, 335-337, 348-350): append the pool posts
whose id is not among the already-selected ids. -/
def mergeStage (related pool : List BlogPost) : List BlogPost :=
  let existingIds := related.map (fun p => p.id)
  related ++ pool.filter (fun p => ¬ existingIds.contains p.id)

/-- `getRelatedPostsWithFallback` (relatedPostsUtils lines 303-354): main
algorithm, then category / tag / recency fallback stages, merged without
duplicate ids, truncated to `maxPosts`. -/
def getRelatedPostsWithFallback (currentPost : BlogPost) (allPosts : List BlogPost)
    (config : RelatedPostsConfig) : List BlogPost :=
  let related1 := findRelatedPosts currentPost allPosts config
  let related2 :=
    if related1.length < config.maxPosts then
      mergeStage related1
        (findRelatedByCategory currentPost allPosts (config.maxPosts - related1.length))
    else related1
  let related3 :=
    if related2.length < config.maxPosts then
      mergeStage related2
        (findRelatedByTags currentPost allPosts (config.maxPosts - related2.length))
    else related2
  let related4 :=
    if related3.length < config.maxPosts then
      mergeStage related3
        (findRecentPosts allPosts currentPost.id (config.maxPosts - related3.length))
    else related3
  related4.take config.maxPosts

/-! ## Concrete fixture posts used by counterexamples and witnesses -/

/-- Fixture author. -/
def authorJane : Author := ⟨"jane", "Jane Doe"⟩

/-- Fixture post titled "React Basics" (regression scenario B of the spec). -/
def postReact : BlogPost :=
  ⟨"p1", "React Basics", "", "", 0, authorJane, [], [], false⟩

/-- Fixture post whose title repeats a word longer than 3 characters. -/
def postTestTest : BlogPost :=
  ⟨"a", "test test", "", "", 0, authorJane, [], [], false⟩

/-- Fixture post titled with the single word "test". -/
def postTest : BlogPost :=
  ⟨"b", "test", "", "", 0, authorJane, [], [], false⟩

/-- Fixture post with the empty string as identifier. -/
def postEmptyId : BlogPost :=
  ⟨"", "hello", "", "", 0, authorJane, [], [], false⟩

/-- Fixture post with one category, one tag, and a two-word title. -/
def postFull : BlogPost :=
  ⟨"f1", "Something here", "", "", 5, authorJane, [⟨"react", "React"⟩], ["hooks"], false⟩

/-- Fixture posts for pagination examples. -/
def postOne : BlogPost := ⟨"q1", "one", "", "", 1, authorJane, [], [], false⟩

/-- Second pagination fixture post. -/
def postTwo : BlogPost := ⟨"q2", "two", "", "", 2, authorJane, [], [], false⟩

/-- Third pagination fixture post. -/
def postThree : BlogPost := ⟨"q3", "three", "", "", 3, authorJane, [], [], false⟩

/-! ## Helper lemmas about the similarity ratios -/

/-- `List.contains` decides membership (the embedding of `Array.includes`). -/
lemma contains_iff {α : Type} [BEq α] [LawfulBEq α] (l : List α) (a : α) :
    l.contains a = true ↔ a ∈ l :=
  List.elem_iff

/-- The numerator of a Jaccard-style ratio is bounded by its deduplicated
union denominator as soon as the first list has no duplicates. -/
lemma length_filter_le_dedup_append {α : Type} [DecidableEq α] (p : α → Bool)
    {a : List α} (b : List α) (h : a.Nodup) :
    (a.filter p).length ≤ ((a ++ b).dedup).length := by
  have hsub : a.filter p ⊆ (a ++ b).dedup := by
    intro x hx
    rw [List.mem_dedup]
    exact List.mem_append_left _ (List.mem_of_mem_filter hx)
  exact (List.subperm_of_subset (h.filter p) hsub).length_le

/-- Counting the common elements of two duplicate-free lists is symmetric. -/
lemma filter_contains_length_symm {α : Type} [BEq α] [LawfulBEq α] {a b : List α}
    (ha : a.Nodup) (hb : b.Nodup) :
    (a.filter (fun x => b.contains x)).length
      = (b.filter (fun x => a.contains x)).length := by
  apply Nat.le_antisymm <;>
  · refine (List.subperm_of_subset (List.Nodup.filter _ (by assumption)) ?_).length_le
    intro x hx
    rw [List.mem_filter] at hx ⊢
    rw [contains_iff] at hx
    exact ⟨hx.2, (contains_iff _ _).mpr hx.1⟩

/-- The deduplicated union has the same size in either order. -/
lemma dedup_append_length_symm {α : Type} [DecidableEq α] (a b : List α) :
    ((a ++ b).dedup).length = ((b ++ a).dedup).length := by
  apply List.Perm.length_eq
  apply List.perm_of_nodup_nodup_toFinset_eq (List.nodup_dedup _) (List.nodup_dedup _)
  ext x
  simp [List.mem_dedup, or_comm]

/-- Over a duplicate-free list, filtering by self-membership keeps everything
and the deduplicated doubled union has the same length as the list. -/
lemma self_ratio_eq_one {α : Type} [BEq α] [LawfulBEq α] [DecidableEq α] {a : List α}
    (h : a.Nodup) (hne : a ≠ []) :
    ((a.filter (fun x => a.contains x)).length : ℚ) / (((a ++ a).dedup).length : ℚ) = 1 := by
  have hfilter : a.filter (fun x => a.contains x) = a :=
    List.filter_eq_self.mpr (fun x hx => (contains_iff _ _).mpr hx)
  have hlen : ((a ++ a).dedup).length = a.length := by
    apply List.Perm.length_eq
    apply List.perm_of_nodup_nodup_toFinset_eq (List.nodup_dedup _) h
    ext x
    simp [List.mem_dedup]
  rw [hfilter, hlen]
  have : (a.length : ℚ) ≠ 0 := by
    exact_mod_cast List.length_pos.mpr hne |>.ne'
  exact div_self this

/-! ## Evaluation lemmas for the concrete regression scenario of Claim C1 -/

/-- The edit distance between "react basics" and "reac" is 8. -/
lemma lev_react_reac :
    levenshteinDistance (toLower "React Basics".toList) (toLower "reac".toList) = 8 := by
  decide

/-- The edit-distance similarity of "reac" against the whole title value
"React Basics" is 1/3. -/
lemma similarity_react_reac :
    similarity "React Basics".toList "reac".toList = 1 / 3 := by
  rw [similarity, if_neg (by decide), if_neg (by decide), lev_react_reac]
  have hmax : ("React Basics".toList.length ⊔ "reac".toList.length) = 12 := by decide
  rw [hmax]
  norm_num

/-- The query "reac" tokenizes to the single token "reac". -/
lemma tokenize_reac : tokenize "reac".toList = ["reac".toList] := by decide

/-- Fuzzy relevance of the "React Basics" fixture post for the query "reac"
under the default options: no field records a match, and the total score is
the +2 title-substring boost alone. -/
lemma calculateRelevance_postReact :
    calculateRelevance postReact "reac".toList defaultSearchOptions
      = ⟨postReact, 2, []⟩ := by
  have hts : tokenScore true "React Basics".toList "reac".toList = 1 / 3 := by
    rw [tokenScore, if_pos rfl]
    exact similarity_react_reac
  have hfold : fieldTokenFold true (0.6 : ℚ) "React Basics".toList ["reac".toList]
      = (0, []) := by
    rw [fieldTokenFold, List.foldl_cons, List.foldl_nil, hts, if_neg (by norm_num)]
  have hv1 : getFieldValue postReact "title" = "React Basics".toList := by decide
  have hv2 : getFieldValue postReact "excerpt" = [] := by decide
  have hv3 : getFieldValue postReact "content" = [] := by decide
  have hv4 : getFieldValue postReact "tags" = [] := by decide
  have hin : toLower "reac".toList <:+: toLower postReact.title.toList := by decide
  rw [calculateRelevance, tokenize_reac]
  simp only [defaultSearchOptions, List.foldl_cons, List.foldl_nil, hv1, hv2, hv3, hv4,
    hfold, if_pos hin]
  norm_num [postReact]

/-! ## Claim C1 -/

/-- Claim C1 fails on the code: for the query "reac" against the title
"React Basics", the edit-distance similarity is computed against the whole
field value, giving 1/3, which does not exceed the 0.6 threshold, so the
title field records no fuzzy match (the match list of the result stays
empty). -/
theorem c1_counterexample :
    similarity "React Basics".toList "reac".toList = 1 / 3 ∧
    ¬ (0.6 : ℚ) < similarity "React Basics".toList "reac".toList ∧
    (calculateRelevance postReact "reac".toList defaultSearchOptions).matches = [] := by
  refine ⟨similarity_react_reac, ?_, ?_⟩
  · rw [similarity_react_reac]; norm_num
  · rw [calculateRelevance_postReact]

/-- Claim C1 (amended): for the query "reac" with fuzzy matching enabled and
fuzzyThreshold 0.6, the normalized edit-distance similarity of the token
against the whole title field value "React Basics" is 1/3, below the
threshold, so the title field records no fuzzy match; the post nevertheless
matches the query with total score 2, coming entirely from the separate
+2 exact-title-substring boost, and is returned by the search. -/
theorem c1_amended_no_fuzzy_title_match :
    similarity "React Basics".toList "reac".toList = 1 / 3 ∧
    (calculateRelevance postReact "reac".toList defaultSearchOptions).score = 2 ∧
    (calculateRelevance postReact "reac".toList defaultSearchOptions).matches = [] ∧
    searchPosts [postReact] "reac".toList defaultSearchOptions
      = [⟨postReact, 2, []⟩] := by
  refine ⟨similarity_react_reac, ?_, ?_, ?_⟩
  · rw [calculateRelevance_postReact]
  · rw [calculateRelevance_postReact]
  · rw [searchPosts, if_neg (by decide), List.map_cons, List.map_nil,
      calculateRelevance_postReact]
    simp only [List.filter_cons, List.filter_nil, decide_eq_true_eq]
    rw [if_pos (by norm_num)]
    simp [List.insertionSort, List.orderedInsert, defaultSearchOptions]


/-! ## Helper lemmas for guarded Jaccard-style ratios -/

/-- A guarded ratio of natural counts is nonnegative. -/
lemma guarded_ratio_nonneg (m t : ℕ) :
    0 ≤ (if 0 < t then (m : ℚ) / (t : ℚ) else 0) := by
  split_ifs with h
  · positivity
  · exact le_refl 0

/-- A guarded ratio of natural counts is at most 1 when the numerator is
bounded by the denominator. -/
lemma guarded_ratio_le_one {m t : ℕ} (hmt : m ≤ t) :
    (if 0 < t then (m : ℚ) / (t : ℚ) else 0) ≤ 1 := by
  split_ifs with h
  · rw [div_le_one (by exact_mod_cast h)]
    exact_mod_cast hmt
  · norm_num

/-- Symmetry of the guarded Jaccard-style ratio over duplicate-free lists. -/
lemma jaccardish_symm {α : Type} [BEq α] [LawfulBEq α] [DecidableEq α] {a b : List α}
    (ha : a.Nodup) (hb : b.Nodup) :
    (if 0 < ((a ++ b).dedup).length then
        ((a.filter (fun x => b.contains x)).length : ℚ) / (((a ++ b).dedup).length : ℚ)
      else 0)
      = (if 0 < ((b ++ a).dedup).length then
          ((b.filter (fun x => a.contains x)).length : ℚ) / (((b ++ a).dedup).length : ℚ)
        else 0) := by
  rw [filter_contains_length_symm ha hb, dedup_append_length_symm]

/-- The guarded ratio of a duplicate-free nonempty list against itself is 1. -/
lemma self_guarded_ratio {α : Type} [BEq α] [LawfulBEq α] [DecidableEq α] {a : List α}
    (h : a.Nodup) (hne : a ≠ []) :
    (if 0 < ((a ++ a).dedup).length then
        ((a.filter (fun x => a.contains x)).length : ℚ) / (((a ++ a).dedup).length : ℚ)
      else 0) = 1 := by
  have hpos : 0 < ((a ++ a).dedup).length := by
    obtain ⟨x, hx⟩ := List.exists_mem_of_ne_nil a hne
    have hxd : x ∈ (a ++ a).dedup := by
      rw [List.mem_dedup]
      exact List.mem_append_left _ hx
    exact List.length_pos.mpr (List.ne_nil_of_mem hxd)
  rw [if_pos hpos]
  exact self_ratio_eq_one h hne

/-! ## Claim C2 -/

/-- Claim C2 fails on the code: the content word-overlap factor counts
duplicated words of the first post without deduplication, so for a post whose
title repeats the word "test" the factor is 2, outside [0, 1]. -/
theorem c2_counterexample :
    calculateContentSimilarity postTestTest postTestTest = 2 ∧
    ¬ calculateContentSimilarity postTestTest postTestTest ≤ 1 := by
  have hc : (contentWords postTestTest).filter
      (fun w => (contentWords postTestTest).contains w)
      = [['t','e','s','t'], ['t','e','s','t']] := by decide
  have ht : ((contentWords postTestTest ++ contentWords postTestTest).dedup).length = 1 := by
    decide
  have h2 : calculateContentSimilarity postTestTest postTestTest = 2 := by
    rw [calculateContentSimilarity, hc, ht]
    norm_num
  exact ⟨h2, by rw [h2]; norm_num⟩

/-- Claim C2 (amended): all four raw similarity factors are always
nonnegative and the author factor always lies in [0,1]; the category, tag and
content factors are at most 1 whenever the first post's category-slug list,
tag list and content-word list respectively contain no duplicates; with a
duplicated content word the content factor can exceed 1 (see the
counterexample). -/
theorem c2_amended_factor_bounds (postA postB : BlogPost) :
    (0 ≤ calculateCategorySimilarity postA postB ∧
      0 ≤ calculateTagSimilarity postA postB ∧
      0 ≤ calculateContentSimilarity postA postB ∧
      0 ≤ calculateAuthorSimilarity postA postB) ∧
    calculateAuthorSimilarity postA postB ≤ 1 ∧
    ((postA.categories.map (fun c => c.slug)).Nodup →
      calculateCategorySimilarity postA postB ≤ 1) ∧
    (postA.tags.Nodup → calculateTagSimilarity postA postB ≤ 1) ∧
    ((contentWords postA).Nodup → calculateContentSimilarity postA postB ≤ 1) := by
  refine ⟨⟨?_, ?_, ?_, ?_⟩, ?_, ?_, ?_, ?_⟩
  · simp only [calculateCategorySimilarity]
    exact guarded_ratio_nonneg _ _
  · simp only [calculateTagSimilarity]
    exact guarded_ratio_nonneg _ _
  · simp only [calculateContentSimilarity]
    exact guarded_ratio_nonneg _ _
  · rw [calculateAuthorSimilarity]
    split_ifs <;> norm_num
  · rw [calculateAuthorSimilarity]
    split_ifs <;> norm_num
  · intro hcat
    simp only [calculateCategorySimilarity]
    exact guarded_ratio_le_one (length_filter_le_dedup_append _ _ hcat)
  · intro htag
    simp only [calculateTagSimilarity]
    exact guarded_ratio_le_one (length_filter_le_dedup_append _ _ htag)
  · intro hwords
    simp only [calculateContentSimilarity]
    exact guarded_ratio_le_one (length_filter_le_dedup_append _ _ hwords)

/-- Witness for the amended Claim C2 at the concrete pair
(postFull, postTest), discharging each duplicate-freeness hypothesis. -/
theorem c2_amended_factor_bounds_witness :
    ((postFull.categories.map (fun c => c.slug)).Nodup ∧ postFull.tags.Nodup ∧
      (contentWords postFull).Nodup) ∧
    ((0 ≤ calculateCategorySimilarity postFull postTest ∧
        0 ≤ calculateTagSimilarity postFull postTest ∧
        0 ≤ calculateContentSimilarity postFull postTest ∧
        0 ≤ calculateAuthorSimilarity postFull postTest) ∧
      calculateAuthorSimilarity postFull postTest ≤ 1 ∧
      calculateCategorySimilarity postFull postTest ≤ 1 ∧
      calculateTagSimilarity postFull postTest ≤ 1 ∧
      calculateContentSimilarity postFull postTest ≤ 1) :=
  ⟨⟨by decide, by decide, by decide⟩,
    ⟨(c2_amended_factor_bounds postFull postTest).1,
      (c2_amended_factor_bounds postFull postTest).2.1,
      (c2_amended_factor_bounds postFull postTest).2.2.1 (by decide),
      (c2_amended_factor_bounds postFull postTest).2.2.2.1 (by decide),
      (c2_amended_factor_bounds postFull postTest).2.2.2.2 (by decide)⟩⟩

/-! ## Claim C3 -/

/-- Claim C3 fails on the code: the content component is not symmetric when a
word repeats inside one post's title+excerpt — between the "test test" post
and the "test" post it is 2 one way and 1 the other. -/
theorem c3_counterexample :
    calculateContentSimilarity postTestTest postTest = 2 ∧
    calculateContentSimilarity postTest postTestTest = 1 ∧
    calculateContentSimilarity postTestTest postTest
      ≠ calculateContentSimilarity postTest postTestTest := by
  have hc1 : (contentWords postTestTest).filter
      (fun w => (contentWords postTest).contains w)
      = [['t','e','s','t'], ['t','e','s','t']] := by decide
  have hc2 : (contentWords postTest).filter
      (fun w => (contentWords postTestTest).contains w) = [['t','e','s','t']] := by decide
  have ht1 : ((contentWords postTestTest ++ contentWords postTest).dedup).length = 1 := by
    decide
  have ht2 : ((contentWords postTest ++ contentWords postTestTest).dedup).length = 1 := by
    decide
  have h1 : calculateContentSimilarity postTestTest postTest = 2 := by
    rw [calculateContentSimilarity, hc1, ht1]
    norm_num
  have h2 : calculateContentSimilarity postTest postTestTest = 1 := by
    rw [calculateContentSimilarity, hc2, ht2]
    norm_num
  refine ⟨h1, h2, ?_⟩
  rw [h1, h2]
  norm_num

/-- Claim C3 (amended): the category, tag and content components are
symmetric whenever the corresponding element lists of both posts
(category slugs, tags, and content words longer than 3 characters) contain no
duplicates; a repeated content word breaks the symmetry of the content
component (see the counterexample). -/
theorem c3_amended_componentwise_symmetry (postA postB : BlogPost)
    (h1 : (postA.categories.map (fun c => c.slug)).Nodup)
    (h2 : (postB.categories.map (fun c => c.slug)).Nodup)
    (h3 : postA.tags.Nodup) (h4 : postB.tags.Nodup)
    (h5 : (contentWords postA).Nodup) (h6 : (contentWords postB).Nodup) :
    calculateCategorySimilarity postA postB = calculateCategorySimilarity postB postA ∧
    calculateTagSimilarity postA postB = calculateTagSimilarity postB postA ∧
    calculateContentSimilarity postA postB = calculateContentSimilarity postB postA := by
  refine ⟨?_, ?_, ?_⟩
  · simp only [calculateCategorySimilarity]
    exact jaccardish_symm h1 h2
  · simp only [calculateTagSimilarity]
    exact jaccardish_symm h3 h4
  · simp only [calculateContentSimilarity]
    exact jaccardish_symm h5 h6

/-- Witness for the amended Claim C3 at the concrete pair
(postFull, postTest). -/
theorem c3_amended_componentwise_symmetry_witness :
    ((postFull.categories.map (fun c => c.slug)).Nodup ∧
      (postTest.categories.map (fun c => c.slug)).Nodup ∧
      postFull.tags.Nodup ∧ postTest.tags.Nodup ∧
      (contentWords postFull).Nodup ∧ (contentWords postTest).Nodup) ∧
    (calculateCategorySimilarity postFull postTest
        = calculateCategorySimilarity postTest postFull ∧
      calculateTagSimilarity postFull postTest = calculateTagSimilarity postTest postFull ∧
      calculateContentSimilarity postFull postTest
        = calculateContentSimilarity postTest postFull) :=
  ⟨⟨by decide, by decide, by decide, by decide, by decide, by decide⟩,
    c3_amended_componentwise_symmetry postFull postTest (by decide) (by decide) (by decide)
      (by decide) (by decide) (by decide)⟩

/-! ## Claim C4 -/

/-- Claim C4 fails on the code: a post with no categories has category
self-similarity 0, not 1, because an empty union yields component 0. -/
theorem c4_counterexample :
    calculateCategorySimilarity postTest postTest = 0 ∧
    calculateCategorySimilarity postTest postTest ≠ 1 := by
  have h0 : calculateCategorySimilarity postTest postTest = 0 := by
    simp [calculateCategorySimilarity, postTest]
  exact ⟨h0, by rw [h0]; norm_num⟩

/-- Claim C4 (amended): for a post with at least one category, at least one
tag and at least one content word longer than 3 characters, whose
category-slug, tag and content-word lists contain no duplicates, every
component of the self-similarity equals 1 and the weighted total equals 1;
for a post missing categories, tags or long words the corresponding
component is 0 (see the counterexample). -/
theorem c4_amended_self_similarity (p : BlogPost)
    (hc : (p.categories.map (fun c => c.slug)).Nodup) (hcne : p.categories ≠ [])
    (ht : p.tags.Nodup) (htne : p.tags ≠ [])
    (hw : (contentWords p).Nodup) (hwne : contentWords p ≠ []) :
    calculateCategorySimilarity p p = 1 ∧ calculateTagSimilarity p p = 1 ∧
    calculateContentSimilarity p p = 1 ∧ calculateAuthorSimilarity p p = 1 ∧
    calculatePostSimilarity p p = 1 := by
  have hcats : calculateCategorySimilarity p p = 1 := by
    simp only [calculateCategorySimilarity]
    exact self_guarded_ratio hc (by simpa using hcne)
  have htags : calculateTagSimilarity p p = 1 := by
    simp only [calculateTagSimilarity]
    exact self_guarded_ratio ht htne
  have hcont : calculateContentSimilarity p p = 1 := by
    simp only [calculateContentSimilarity]
    exact self_guarded_ratio hw hwne
  have hauth : calculateAuthorSimilarity p p = 1 := by
    rw [calculateAuthorSimilarity, if_pos rfl]
  refine ⟨hcats, htags, hcont, hauth, ?_⟩
  rw [calculatePostSimilarity, hcats, htags, hcont, hauth]
  norm_num

/-- Witness for the amended Claim C4 at the concrete post postFull. -/
theorem c4_amended_self_similarity_witness :
    ((postFull.categories.map (fun c => c.slug)).Nodup ∧ postFull.categories ≠ [] ∧
      postFull.tags.Nodup ∧ postFull.tags ≠ [] ∧
      (contentWords postFull).Nodup ∧ contentWords postFull ≠ []) ∧
    (calculateCategorySimilarity postFull postFull = 1 ∧
      calculateTagSimilarity postFull postFull = 1 ∧
      calculateContentSimilarity postFull postFull = 1 ∧
      calculateAuthorSimilarity postFull postFull = 1 ∧
      calculatePostSimilarity postFull postFull = 1) :=
  ⟨⟨by decide, by decide, by decide, by decide, by decide, by decide⟩,
    c4_amended_self_similarity postFull (by decide) (by decide) (by decide) (by decide)
      (by decide) (by decide)⟩


/-! ## Claim C5 -/

/-- With fuzzy matching off, the per-token score is the substring indicator. -/
lemma tokenScore_false (fieldValue token : List Char) :
    tokenScore false fieldValue token = if token <:+: fieldValue then 1 else 0 := by
  rw [tokenScore, if_neg (by simp)]

/-- The accumulated field score with fuzzy off: the threshold test is applied
to the 0/1 substring indicator, so each substring token contributes 1 when
`threshold < 1` and nothing otherwise. -/
lemma fieldTokenFold_false_general (threshold : ℚ) (fieldValue : List Char)
    (tokens : List (List Char)) :
    ∀ (q : ℚ) (bm : List Char),
      (List.foldl (fun acc token =>
          let ts := tokenScore false fieldValue token
          if threshold < ts then (acc.1 + ts, token) else acc) (q, bm) tokens).1
        = q + (if threshold < 1 then
            ((tokens.filter (fun t => decide (t <:+: fieldValue))).length : ℚ)
          else 0) := by
  induction tokens with
  | nil =>
    intro q bm
    simp only [List.foldl_nil, List.filter_nil, List.length_nil, Nat.cast_zero, ite_self,
      add_zero]
  | cons t ts ih =>
    intro q bm
    rw [List.foldl_cons]
    have hstep : (let s := tokenScore false fieldValue t
        if threshold < s then ((q, bm).1 + s, t) else (q, bm))
        = if threshold < tokenScore false fieldValue t
            then (q + tokenScore false fieldValue t, t) else (q, bm) := rfl
    rw [hstep, tokenScore_false fieldValue t]
    by_cases hinf : t <:+: fieldValue
    · rw [if_pos hinf]
      have hfc : List.filter (fun t => decide (t <:+: fieldValue)) (t :: ts)
          = t :: List.filter (fun t => decide (t <:+: fieldValue)) ts := by
        rw [List.filter_cons, if_pos (by simpa using hinf)]
      by_cases hth : threshold < 1
      · rw [if_pos hth, ih, if_pos hth, if_pos hth, hfc, List.length_cons]
        push_cast
        ring
      · rw [if_neg hth, ih, if_neg hth, if_neg hth]
    · rw [if_neg hinf]
      have hfc : List.filter (fun t => decide (t <:+: fieldValue)) (t :: ts)
          = List.filter (fun t => decide (t <:+: fieldValue)) ts := by
        rw [List.filter_cons, if_neg (by simpa using hinf)]
      by_cases hth0 : threshold < 0
      · rw [if_pos hth0, ih, hfc, add_zero]
      · rw [if_neg hth0, ih, hfc]

/-- Claim C5 fails on the code: with fuzzy matching disabled the threshold is
still applied to the per-token score, so with fuzzyThreshold = 1 a token that
is an exact substring of the field value contributes 0, not 1, to the field's
accumulated score. -/
theorem c5_counterexample :
    ("abc".toList <:+: "abc".toList) ∧
    (fieldTokenFold false 1 "abc".toList ["abc".toList]).1 = 0 ∧
    (fieldTokenFold false 1 "abc".toList ["abc".toList]).1 ≠ 1 := by
  have h0 : (fieldTokenFold false 1 "abc".toList ["abc".toList]).1 = 0 := by
    rw [fieldTokenFold, List.foldl_cons, List.foldl_nil]
    simp only [tokenScore_false, if_pos (show "abc".toList <:+: "abc".toList by decide)]
    rw [if_neg (by norm_num)]
  exact ⟨by decide, h0, by rw [h0]; norm_num⟩

/-- Claim C5 (amended): when fuzzy matching is disabled, a query token scores
1 against a field value exactly when it is a substring and 0 otherwise, but
the `score > fuzzyThreshold` test is still applied to this score: the field's
accumulated score counts one per substring token when fuzzyThreshold < 1 and
is 0 when fuzzyThreshold ≥ 1. -/
theorem c5_amended_substring_scoring (threshold : ℚ) (fieldValue : List Char)
    (tokens : List (List Char)) :
    (∀ token, tokenScore false fieldValue token
        = if token <:+: fieldValue then 1 else 0) ∧
    (fieldTokenFold false threshold fieldValue tokens).1
      = (if threshold < 1 then
          ((tokens.filter (fun t => decide (t <:+: fieldValue))).length : ℚ)
        else 0) := by
  refine ⟨fun token => tokenScore_false fieldValue token, ?_⟩
  rw [fieldTokenFold, fieldTokenFold_false_general threshold fieldValue tokens 0 [],
    zero_add]


/-! ## Claim C7 -/

/-- For nonnegative bounds, the ECMAScript slice is drop-then-take. -/
lemma jsSlice_of_nonneg {α : Type} (xs : List α) (s e : ℤ) (hs : 0 ≤ s) (he : 0 ≤ e) :
    jsSlice xs s e = (xs.drop s.toNat).take (e.toNat - s.toNat) := by
  simp only [jsSlice]
  rw [if_neg (by omega), if_neg (by omega), List.drop_take]
  rcases le_or_lt s (xs.length : ℤ) with hsl | hsl
  · have h1 : min s (xs.length : ℤ) = s := min_eq_left hsl
    rw [h1]
    rcases le_or_lt e (xs.length : ℤ) with hel | hel
    · have h2 : min e (xs.length : ℤ) = e := min_eq_left hel
      rw [h2]
    · have h2 : min e (xs.length : ℤ) = (xs.length : ℤ) := min_eq_right hel.le
      rw [h2]
      have hlen : ((xs.length : ℤ)).toNat = xs.length := Int.toNat_natCast _
      rw [hlen]
      have hlend : (xs.drop s.toNat).length = xs.length - s.toNat := List.length_drop _ _
      rw [List.take_of_length_le (by omega), List.take_of_length_le (by omega)]
  · have h1 : min s (xs.length : ℤ) = (xs.length : ℤ) := min_eq_right hsl.le
    rw [h1]
    have hlen : ((xs.length : ℤ)).toNat = xs.length := Int.toNat_natCast _
    rw [hlen, List.drop_length, List.drop_eq_nil_of_le (by omega), List.take_nil,
      List.take_nil]

/-- Claim C7 fails on the code: a negative currentPage reaches
`Array.prototype.slice` as negative indices, which count from the end of the
array, so the result need not be empty — with three posts, currentPage = -1
and postsPerPage = 2 return the first post. -/
theorem c7_counterexample :
    (-1 : ℤ) < 1 ∧ (1 : ℤ) ≤ 2 ∧
    getPaginatedPosts [postOne, postTwo, postThree] (-1) 2 = [postOne] ∧
    getPaginatedPosts [postOne, postTwo, postThree] (-1) 2 ≠ [] := by
  refine ⟨by norm_num, by norm_num, by decide, by decide⟩

/-- Claim C7 (amended): for every postsPerPage ≥ 1, getPaginatedPosts returns
the empty sequence for currentPage = 0 and for every currentPage ≥ 1 whose
zero-based start offset lies at or beyond the end of the list; for every
currentPage ≥ 1 it returns exactly the elements from offset
(currentPage-1)·postsPerPage for postsPerPage positions, clipped to the list
bounds.  (For currentPage < 0 the negative-index slice semantics apply and
the result can be non-empty, see the counterexample.) -/
theorem c7_amended_pagination_slice (posts : List BlogPost) (c p : ℤ) (hp : 1 ≤ p) :
    (c = 0 → getPaginatedPosts posts c p = []) ∧
    (1 ≤ c → getPaginatedPosts posts c p
        = (posts.drop ((c - 1) * p).toNat).take p.toNat) ∧
    (1 ≤ c → (posts.length : ℤ) ≤ (c - 1) * p → getPaginatedPosts posts c p = []) := by
  have hmain : 1 ≤ c → getPaginatedPosts posts c p
      = (posts.drop ((c - 1) * p).toNat).take p.toNat := by
    intro hc
    have hs : 0 ≤ (c - 1) * p := mul_nonneg (by omega) (by omega)
    have he : 0 ≤ (c - 1) * p + p := by omega
    rw [getPaginatedPosts, jsSlice_of_nonneg posts _ _ hs he]
    have : ((c - 1) * p + p).toNat - ((c - 1) * p).toNat = p.toNat := by omega
    rw [this]
  refine ⟨?_, hmain, ?_⟩
  · intro hc
    subst hc
    rw [getPaginatedPosts]
    simp only [jsSlice]
    have h1 : (0 - 1) * p < 0 := by nlinarith
    have h2 : ¬ ((0 - 1) * p + p < 0) := by omega
    rw [if_pos h1, if_neg h2]
    have h3 : ((0 : ℤ) - 1) * p + p = 0 := by ring
    rw [h3]
    have h4 : (min (0 : ℤ) (posts.length : ℤ)).toNat = 0 := by
      have : min (0 : ℤ) (posts.length : ℤ) = 0 := min_eq_left (by omega)
      omega
    rw [h4, List.take_zero, List.drop_nil]
  · intro hc hout
    rw [hmain hc, List.drop_eq_nil_of_le (by omega), List.take_nil]

/-- Witness for the amended Claim C7 at three posts, currentPage 2,
postsPerPage 2. -/
theorem c7_amended_pagination_slice_witness :
    (1 : ℤ) ≤ 2 ∧
    ((2 : ℤ) = 0 → getPaginatedPosts [postOne, postTwo, postThree] 2 2 = []) ∧
    ((1 : ℤ) ≤ 2 → getPaginatedPosts [postOne, postTwo, postThree] 2 2
        = ([postOne, postTwo, postThree].drop (((2 : ℤ) - 1) * 2).toNat).take (2 : ℤ).toNat) ∧
    ((1 : ℤ) ≤ 2 → (([postOne, postTwo, postThree] : List BlogPost).length : ℤ) ≤ ((2 : ℤ) - 1) * 2 →
      getPaginatedPosts [postOne, postTwo, postThree] 2 2 = []) :=
  ⟨by norm_num, c7_amended_pagination_slice [postOne, postTwo, postThree] 2 2 (by norm_num)⟩

/-! ## Claim C8 -/

/-- Claim C8 fails on the code: the strip for currentPage 10, totalPages 20,
maxVisiblePages 7 has 11 entries, so the segment between the two ellipsis
markers holds 7 page numbers (7..13), not 3 to 5. -/
theorem c8_counterexample :
    generatePageNumbers 10 20 7
      = [PageItem.page 1, PageItem.ellipsis, PageItem.page 7, PageItem.page 8, PageItem.page 9,
         PageItem.page 10, PageItem.page 11, PageItem.page 12, PageItem.page 13,
         PageItem.ellipsis, PageItem.page 20] ∧
    ¬ ∃ w : List PageItem,
        generatePageNumbers 10 20 7
          = [PageItem.page 1, PageItem.ellipsis] ++ w
            ++ [PageItem.ellipsis, PageItem.page 20] ∧
        3 ≤ w.length ∧ w.length ≤ 5 := by
  refine ⟨by decide, ?_⟩
  rintro ⟨w, hw, h3, h5⟩
  have hlen : (generatePageNumbers 10 20 7).length = 11 := by decide
  rw [hw] at hlen
  simp only [List.length_append, List.length_cons, List.length_nil] at hlen
  omega

/-- Claim C8 (amended): generatePageNumbers with currentPage 10,
totalPages 20, maxVisiblePages 7 begins with [1, '...'], ends with
['...', 20], and between the two ellipsis markers holds the contiguous window
of the 7 page numbers 7..13 centered on page 10 (currentPage ± halfVisible
where halfVisible = floor(7/2) = 3). -/
theorem c8_amended_window_of_seven :
    generatePageNumbers 10 20 7
      = [PageItem.page 1, PageItem.ellipsis]
        ++ (rangeInt 7 13).map PageItem.page
        ++ [PageItem.ellipsis, PageItem.page 20] ∧
    (rangeInt 7 13).length = 7 ∧ rangeInt 7 13 = [7, 8, 9, 10, 11, 12, 13] := by
  refine ⟨by decide, by decide, by decide⟩


/-! ## Claim C9 -/

/-- A nonempty inclusive integer range starts with its lower bound. -/
lemma rangeInt_cons {a b : ℤ} (h : a ≤ b) : rangeInt a b = a :: rangeInt (a + 1) b := by
  rw [rangeInt, rangeInt]
  have hn : (b + 1 - a).toNat = (b - a).toNat + 1 := by omega
  have hn2 : (b + 1 - (a + 1)).toNat = (b - a).toNat := by omega
  rw [hn, hn2, List.range_succ_eq_map, List.map_cons, List.map_map]
  congr 1
  · simp
  · refine List.map_congr_left (fun i _ => ?_)
    simp only [Function.comp_apply]
    push_cast
    ring

/-- A nonempty inclusive integer range is not the empty list. -/
lemma rangeInt_ne_nil {a b : ℤ} (h : a ≤ b) : rangeInt a b ≠ [] := by
  rw [rangeInt_cons h]
  exact List.cons_ne_nil _ _

/-- The page-mapped inclusive range ends with its upper bound. -/
lemma getLast?_map_rangeInt (a b : ℤ) (h : a ≤ b) :
    ((rangeInt a b).map PageItem.page).getLast? = some (PageItem.page b) := by
  rw [rangeInt]
  have hn : (b + 1 - a).toNat = (b - a).toNat + 1 := by omega
  rw [hn, List.range_succ, List.map_append, List.map_append, List.map_cons, List.map_nil,
    List.map_cons, List.map_nil, List.getLast?_concat]
  have hb : a + (((b - a).toNat : ℕ) : ℤ) = b := by omega
  rw [hb]

/-- The no-two-adjacent-ellipses relation of Claim C9. -/
def NoDoubleEllipsis (x y : PageItem) : Prop :=
  ¬(x = PageItem.ellipsis ∧ y = PageItem.ellipsis)

instance : DecidableRel NoDoubleEllipsis := fun x y =>
  inferInstanceAs (Decidable (¬(x = PageItem.ellipsis ∧ y = PageItem.ellipsis)))

/-- A list with no ellipsis at all has no two adjacent ellipses. -/
lemma chain'_of_no_ellipsis {l : List PageItem} (h : ∀ x ∈ l, x ≠ PageItem.ellipsis) :
    List.Chain' NoDoubleEllipsis l := by
  induction l with
  | nil => exact List.chain'_nil
  | cons a l ih =>
    cases l with
    | nil => exact List.chain'_singleton a
    | cons b l2 =>
      rw [List.chain'_cons]
      refine ⟨fun hc => h a (by simp) hc.1, ?_⟩
      exact ih (fun x hx => h x (List.mem_cons_of_mem a hx))

/-- Chain-property of the assembled page strip: page, optional ellipsis,
nonempty all-page window, optional ellipsis, page. -/
lemma chain'_strip (g1 g2 m : List PageItem) (x1 x2 : PageItem)
    (hx1 : x1 ≠ PageItem.ellipsis) (hx2 : x2 ≠ PageItem.ellipsis)
    (hg1 : g1 = [] ∨ g1 = [PageItem.ellipsis])
    (hg2 : g2 = [] ∨ g2 = [PageItem.ellipsis])
    (hm : m ≠ [])
    (hmp : ∀ x ∈ m, x ≠ PageItem.ellipsis) :
    List.Chain' NoDoubleEllipsis ([x1] ++ g1 ++ m ++ g2 ++ [x2]) := by
  obtain ⟨m0, mt, rfl⟩ : ∃ m0 mt, m = m0 :: mt := by
    cases m with
    | nil => exact absurd rfl hm
    | cons a l => exact ⟨a, l, rfl⟩
  have hm0 : m0 ≠ PageItem.ellipsis := hmp m0 (by simp)
  have hchainA : List.Chain' NoDoubleEllipsis ([x1] ++ g1) := by
    rcases hg1 with rfl | rfl
    · exact List.chain'_singleton x1
    · rw [List.singleton_append, List.chain'_cons]
      exact ⟨fun hc => hx1 hc.1, List.chain'_singleton _⟩
  have hchainAm : List.Chain' NoDoubleEllipsis (([x1] ++ g1) ++ (m0 :: mt)) := by
    rw [List.chain'_append]
    refine ⟨hchainA, chain'_of_no_ellipsis hmp, ?_⟩
    intro x hx y hy
    rw [List.head?_cons, Option.mem_some_iff] at hy
    exact fun hc => hm0 (hy ▸ hc.2)
  have hlastm : ∀ x, x ∈ ((([x1] ++ g1) ++ (m0 :: mt)).getLast?) → x ≠ PageItem.ellipsis := by
    intro x hx
    rw [List.getLast?_append_of_ne_nil _ (List.cons_ne_nil m0 mt)] at hx
    exact hmp x (List.mem_of_mem_getLast? hx)
  have hchainAmg : List.Chain' NoDoubleEllipsis ((([x1] ++ g1) ++ (m0 :: mt)) ++ g2) := by
    rw [List.chain'_append]
    refine ⟨hchainAm, ?_, ?_⟩
    · rcases hg2 with rfl | rfl
      · exact List.chain'_nil
      · exact List.chain'_singleton _
    · intro x hx y hy
      exact fun hc => hlastm x hx hc.1
  rw [List.chain'_append]
  refine ⟨hchainAmg, List.chain'_singleton x2, ?_⟩
  intro x hx y hy
  rw [List.head?_cons, Option.mem_some_iff] at hy
  exact fun hc => hx2 (hy ▸ hc.2)

/-- Claim C9 (confirmed): for every totalPages > 1, every currentPage between
1 and totalPages, and maxVisiblePages = 7, the generated strip begins with
page 1, ends with page totalPages, and never holds two adjacent ellipsis
markers. -/
theorem c9_page_strip_shape (currentPage totalPages : ℤ)
    (h1 : 1 < totalPages) (h2 : 1 ≤ currentPage) (h3 : currentPage ≤ totalPages) :
    (generatePageNumbers currentPage totalPages 7).head? = some (PageItem.page 1) ∧
    (generatePageNumbers currentPage totalPages 7).getLast?
      = some (PageItem.page totalPages) ∧
    List.Chain' NoDoubleEllipsis (generatePageNumbers currentPage totalPages 7) := by
  rw [generatePageNumbers]
  by_cases htp : totalPages ≤ 7
  · rw [if_pos htp]
    refine ⟨?_, ?_, ?_⟩
    · rw [rangeInt_cons (by omega), List.map_cons, List.head?_cons]
    · exact getLast?_map_rangeInt 1 totalPages (by omega)
    · refine chain'_of_no_ellipsis (fun x hx => ?_)
      obtain ⟨n, -, rfl⟩ := List.mem_map.mp hx
      simp
  · rw [if_neg htp]
    have h72 : (7 : ℤ) / 2 = 3 := by decide
    simp only [h72]
    have hT : (if 1 < totalPages then [PageItem.page totalPages] else [])
        = [PageItem.page totalPages] := if_pos h1
    rw [hT]
    have hSE : (if totalPages - 3 ≤ currentPage then totalPages - 7 + 2
          else max 2 (currentPage - 3))
        ≤ (if currentPage ≤ 3 + 1 then 7 - 1
          else min (totalPages - 1) (currentPage + 3)) := by
      split_ifs <;> omega
    refine ⟨?_, ?_, ?_⟩
    · simp only [List.append_assoc, List.singleton_append, List.cons_append, List.head?_cons]
    · rw [List.getLast?_concat]
    · refine chain'_strip _ _ _ _ _ (by simp) (by simp) ?_ ?_
        (by
          simp only [ne_eq, List.map_eq_nil_iff]
          exact rangeInt_ne_nil hSE)
        (fun x hx => by
          obtain ⟨n, -, rfl⟩ := List.mem_map.mp hx
          simp)
      · split_ifs <;> simp
      · split_ifs <;> simp

/-- Witness for Claim C9 at currentPage 10, totalPages 20. -/
theorem c9_page_strip_shape_witness :
    ((1 : ℤ) < 20 ∧ (1 : ℤ) ≤ 10 ∧ (10 : ℤ) ≤ 20) ∧
    ((generatePageNumbers 10 20 7).head? = some (PageItem.page 1) ∧
      (generatePageNumbers 10 20 7).getLast? = some (PageItem.page 20) ∧
      List.Chain' NoDoubleEllipsis (generatePageNumbers 10 20 7)) :=
  ⟨⟨by norm_num, by norm_num, by norm_num⟩,
    c9_page_strip_shape 10 20 (by norm_num) (by norm_num) (by norm_num)⟩


/-! ## Helper lemmas about the related-posts selection -/

/-- Stage 1 never returns more than `maxPosts` posts. -/
lemma findRelatedPosts_length_le (currentPost : BlogPost) (allPosts : List BlogPost)
    (config : RelatedPostsConfig) :
    (findRelatedPosts currentPost allPosts config).length ≤ config.maxPosts := by
  simp only [findRelatedPosts, List.length_map, List.length_take]
  exact min_le_left _ _

/-- The candidate pool of stage 1. -/
def candidatePool (currentPost : BlogPost) (allPosts : List BlogPost)
    (config : RelatedPostsConfig) : List BlogPost :=
  if config.excludeCurrentPost then allPosts.filter (fun p => p.id ≠ currentPost.id)
  else allPosts

/-- Stage 1 returns a selection of candidates. -/
lemma mem_candidates_of_mem_findRelatedPosts {currentPost : BlogPost}
    {allPosts : List BlogPost} {config : RelatedPostsConfig} {p : BlogPost}
    (hp : p ∈ findRelatedPosts currentPost allPosts config) :
    p ∈ candidatePool currentPost allPosts config := by
  simp only [findRelatedPosts] at hp
  obtain ⟨item, hitem, rfl⟩ := List.mem_map.mp hp
  have h1 := List.mem_of_mem_take hitem
  rw [List.mem_insertionSort] at h1
  obtain ⟨q, hq, rfl⟩ := List.mem_map.mp h1
  exact hq

/-- Membership in the candidate pool unpacks to membership in the collection
plus the id condition. -/
lemma mem_candidatePool_iff {currentPost : BlogPost} {allPosts : List BlogPost}
    {config : RelatedPostsConfig} {p : BlogPost} :
    p ∈ candidatePool currentPost allPosts config
      ↔ p ∈ allPosts ∧ (config.excludeCurrentPost = true → p.id ≠ currentPost.id) := by
  rw [candidatePool]
  split_ifs with h
  · rw [List.mem_filter]
    simp only [decide_eq_true_eq]
    exact ⟨fun ⟨h1, h2⟩ => ⟨h1, fun _ => h2⟩, fun ⟨h1, h2⟩ => ⟨h1, h2 h⟩⟩
  · simp only [Bool.not_eq_true] at h
    exact ⟨fun h1 => ⟨h1, fun hc => absurd hc (by rw [h]; exact Bool.false_ne_true)⟩,
      fun h1 => h1.1⟩

/-- When stage 1 collects fewer than `maxPosts` posts, it has already
selected every candidate. -/
lemma mem_findRelatedPosts_of_short {currentPost : BlogPost} {allPosts : List BlogPost}
    {config : RelatedPostsConfig}
    (hshort : (findRelatedPosts currentPost allPosts config).length < config.maxPosts)
    {p : BlogPost} (hp : p ∈ candidatePool currentPost allPosts config) :
    p ∈ findRelatedPosts currentPost allPosts config := by
  simp only [findRelatedPosts, List.length_map, List.length_take] at hshort ⊢
  simp only [candidatePool] at hp
  have hlen := (min_lt_iff.mp hshort).resolve_left (lt_irrefl _)
  rw [List.take_of_length_le hlen.le]
  exact List.mem_map.mpr ⟨(p, calculatePostSimilarity currentPost p),
    (List.mem_insertionSort _).mpr (List.mem_map.mpr ⟨p, hp, rfl⟩), rfl⟩

/-- Posts delivered by the category fallback belong to the collection and
differ from the current post by id. -/
lemma mem_findRelatedByCategory {currentPost : BlogPost} {allPosts : List BlogPost}
    {n : ℕ} {p : BlogPost} (hp : p ∈ findRelatedByCategory currentPost allPosts n) :
    p ∈ allPosts ∧ p.id ≠ currentPost.id := by
  simp only [findRelatedByCategory] at hp
  have h1 := List.mem_of_mem_take hp
  rw [List.mem_insertionSort] at h1
  have h2 := List.mem_of_mem_filter h1
  have h3 := List.mem_filter.mp h2
  exact ⟨h3.1, by simpa using h3.2⟩

/-- Posts delivered by the tag fallback belong to the collection and differ
from the current post by id. -/
lemma mem_findRelatedByTags {currentPost : BlogPost} {allPosts : List BlogPost}
    {n : ℕ} {p : BlogPost} (hp : p ∈ findRelatedByTags currentPost allPosts n) :
    p ∈ allPosts ∧ p.id ≠ currentPost.id := by
  simp only [findRelatedByTags] at hp
  have h1 := List.mem_of_mem_take hp
  obtain ⟨item, hitem, rfl⟩ := List.mem_map.mp h1
  rw [List.mem_insertionSort] at hitem
  have h2 := List.mem_of_mem_filter hitem
  obtain ⟨q, hq, rfl⟩ := List.mem_map.mp h2
  have h3 := List.mem_filter.mp hq
  exact ⟨h3.1, by simpa using h3.2⟩

/-- Posts delivered by the recency fallback belong to the collection, and
differ by id from the excluded id when that id is truthy (non-empty). -/
lemma mem_findRecentPosts {allPosts : List BlogPost} {excludePostId : String}
    {n : ℕ} {p : BlogPost} (hp : p ∈ findRecentPosts allPosts excludePostId n) :
    p ∈ allPosts ∧ (excludePostId = "" ∨ p.id ≠ excludePostId) := by
  simp only [findRecentPosts] at hp
  have h1 := List.mem_of_mem_take hp
  rw [List.mem_insertionSort] at h1
  have h2 := List.mem_filter.mp h1
  exact ⟨h2.1, by simpa using h2.2⟩

/-- A merge stage whose pool ids are all already selected adds nothing. -/
lemma mergeStage_eq_self {related pool : List BlogPost}
    (h : ∀ p ∈ pool, p.id ∈ related.map (fun q => q.id)) :
    mergeStage related pool = related := by
  rw [mergeStage]
  rw [List.filter_eq_nil_iff.mpr ?_, List.append_nil]
  intro p hp
  simp only [decide_eq_true_eq, not_not]
  exact (contains_iff _ _).mpr (h p hp)

/-- Every post of a merge stage comes from the selection or from the pool. -/
lemma mem_mergeStage {p : BlogPost} {related pool : List BlogPost}
    (h : p ∈ mergeStage related pool) : p ∈ related ∨ p ∈ pool := by
  rw [mergeStage, List.mem_append] at h
  exact h.imp id (fun h2 => List.mem_of_mem_filter h2)

/-- A merge stage keeps the selected ids duplicate-free. -/
lemma ids_nodup_mergeStage {related pool : List BlogPost}
    (h1 : (related.map (fun p => p.id)).Nodup) (h2 : (pool.map (fun p => p.id)).Nodup) :
    ((mergeStage related pool).map (fun p => p.id)).Nodup := by
  rw [mergeStage, List.map_append, List.nodup_append]
  refine ⟨h1, List.Nodup.sublist (List.Sublist.map _ (List.filter_sublist _)) h2, ?_⟩
  intro a ha hafilter
  obtain ⟨p, hp, rfl⟩ := List.mem_map.mp hafilter
  have hkeep := (List.mem_filter.mp hp).2
  simp only [decide_eq_true_eq] at hkeep
  exact hkeep ((contains_iff _ _).mpr ha)


/-- Stage 1 keeps ids duplicate-free. -/
lemma ids_nodup_findRelatedPosts (currentPost : BlogPost) (allPosts : List BlogPost)
    (config : RelatedPostsConfig) (h : (allPosts.map (fun p => p.id)).Nodup) :
    ((findRelatedPosts currentPost allPosts config).map (fun p => p.id)).Nodup := by
  simp only [findRelatedPosts]
  rw [List.map_map]
  refine List.Nodup.sublist (List.Sublist.map _ (List.take_sublist _ _)) ?_
  have hperm := (List.perm_insertionSort (fun a b : BlogPost × ℚ => b.2 ≤ a.2)
    ((if config.excludeCurrentPost then allPosts.filter (fun p => p.id ≠ currentPost.id)
      else allPosts).map (fun p => (p, calculatePostSimilarity currentPost p)))).map
    ((fun p => p.id) ∘ (fun item => item.1))
  rw [hperm.nodup_iff, List.map_map]
  have heq : ((if config.excludeCurrentPost then
        allPosts.filter (fun p => p.id ≠ currentPost.id) else allPosts).map
          (((fun p => p.id) ∘ (fun (item : BlogPost × ℚ) => item.1)) ∘
            (fun p => (p, calculatePostSimilarity currentPost p))))
      = (if config.excludeCurrentPost then
          allPosts.filter (fun p => p.id ≠ currentPost.id) else allPosts).map
            (fun p => p.id) := rfl
  rw [heq]
  split_ifs
  · exact List.Nodup.sublist (List.Sublist.map _ (List.filter_sublist _)) h
  · exact h

/-- The category fallback keeps ids duplicate-free. -/
lemma ids_nodup_findRelatedByCategory (currentPost : BlogPost) (allPosts : List BlogPost)
    (n : ℕ) (h : (allPosts.map (fun p => p.id)).Nodup) :
    ((findRelatedByCategory currentPost allPosts n).map (fun p => p.id)).Nodup := by
  simp only [findRelatedByCategory]
  refine List.Nodup.sublist (List.Sublist.map _ (List.take_sublist _ _)) ?_
  have hperm := (List.perm_insertionSort
    (fun a b : BlogPost => b.publishedAt ≤ a.publishedAt)
    ((allPosts.filter (fun p => p.id ≠ currentPost.id)).filter
      (fun p => p.categories.any
        (fun c => (currentPost.categories.map (fun c2 => c2.slug)).contains c.slug)))).map
    (fun p => p.id)
  rw [hperm.nodup_iff]
  exact List.Nodup.sublist
    (List.Sublist.map _ ((List.filter_sublist _).trans (List.filter_sublist _))) h

/-- The tag fallback keeps ids duplicate-free. -/
lemma ids_nodup_findRelatedByTags (currentPost : BlogPost) (allPosts : List BlogPost)
    (n : ℕ) (h : (allPosts.map (fun p => p.id)).Nodup) :
    ((findRelatedByTags currentPost allPosts n).map (fun p => p.id)).Nodup := by
  simp only [findRelatedByTags]
  refine List.Nodup.sublist (List.Sublist.map _ (List.take_sublist _ _)) ?_
  rw [List.map_map]
  have hperm := (List.perm_insertionSort (fun a b : BlogPost × ℕ => b.2 ≤ a.2)
    ((((allPosts.filter (fun p => p.id ≠ currentPost.id)).map
        (fun p => (p, (p.tags.filter (fun t => currentPost.tags.contains t)).length))).filter
      (fun item => 0 < item.2)))).map
    ((fun p => p.id) ∘ (fun (item : BlogPost × ℕ) => item.1))
  rw [hperm.nodup_iff]
  refine List.Nodup.sublist (List.Sublist.map _ (List.filter_sublist _)) ?_
  rw [List.map_map]
  have heq : ((allPosts.filter (fun p => p.id ≠ currentPost.id)).map
      (((fun p => p.id) ∘ (fun (item : BlogPost × ℕ) => item.1)) ∘
        (fun p => (p, (p.tags.filter (fun t => currentPost.tags.contains t)).length))))
      = (allPosts.filter (fun p => p.id ≠ currentPost.id)).map (fun p => p.id) := rfl
  rw [heq]
  exact List.Nodup.sublist (List.Sublist.map _ (List.filter_sublist _)) h

/-- The recency fallback keeps ids duplicate-free. -/
lemma ids_nodup_findRecentPosts (allPosts : List BlogPost) (excludePostId : String)
    (n : ℕ) (h : (allPosts.map (fun p => p.id)).Nodup) :
    ((findRecentPosts allPosts excludePostId n).map (fun p => p.id)).Nodup := by
  simp only [findRecentPosts]
  refine List.Nodup.sublist (List.Sublist.map _ (List.take_sublist _ _)) ?_
  have hperm := (List.perm_insertionSort
    (fun a b : BlogPost => b.publishedAt ≤ a.publishedAt)
    (allPosts.filter (fun p => excludePostId = "" ∨ p.id ≠ excludePostId))).map
    (fun p => p.id)
  rw [hperm.nodup_iff]
  exact List.Nodup.sublist (List.Sublist.map _ (List.filter_sublist _)) h

/-- With a truthy (non-empty) current-post id, no fallback stage can add a
post: stage 1 already selected every candidate whenever it undershoots. -/
lemma getRelatedPostsWithFallback_eq (currentPost : BlogPost) (allPosts : List BlogPost)
    (config : RelatedPostsConfig) (hid : currentPost.id ≠ "") :
    getRelatedPostsWithFallback currentPost allPosts config
      = findRelatedPosts currentPost allPosts config := by
  have hRlen := findRelatedPosts_length_le currentPost allPosts config
  simp only [getRelatedPostsWithFallback]
  by_cases hshort : (findRelatedPosts currentPost allPosts config).length < config.maxPosts
  · have hidmem : ∀ p, p ∈ allPosts → p.id ≠ currentPost.id →
        p.id ∈ (findRelatedPosts currentPost allPosts config).map (fun q => q.id) := by
      intro p h1 h2
      exact List.mem_map.mpr ⟨p, mem_findRelatedPosts_of_short hshort
        (mem_candidatePool_iff.mpr ⟨h1, fun _ => h2⟩), rfl⟩
    have h2 : mergeStage (findRelatedPosts currentPost allPosts config)
        (findRelatedByCategory currentPost allPosts
          (config.maxPosts - (findRelatedPosts currentPost allPosts config).length))
        = findRelatedPosts currentPost allPosts config :=
      mergeStage_eq_self (fun p hp =>
        (mem_findRelatedByCategory hp).elim (fun ha hb => hidmem p ha hb))
    have h3 : mergeStage (findRelatedPosts currentPost allPosts config)
        (findRelatedByTags currentPost allPosts
          (config.maxPosts - (findRelatedPosts currentPost allPosts config).length))
        = findRelatedPosts currentPost allPosts config :=
      mergeStage_eq_self (fun p hp =>
        (mem_findRelatedByTags hp).elim (fun ha hb => hidmem p ha hb))
    have h4 : mergeStage (findRelatedPosts currentPost allPosts config)
        (findRecentPosts allPosts currentPost.id
          (config.maxPosts - (findRelatedPosts currentPost allPosts config).length))
        = findRelatedPosts currentPost allPosts config :=
      mergeStage_eq_self (fun p hp => by
        obtain ⟨ha, hb⟩ := mem_findRecentPosts hp
        exact hidmem p ha (hb.resolve_left hid))
    rw [if_pos hshort, h2, if_pos hshort, h3, if_pos hshort, h4,
      List.take_of_length_le hRlen]
  · rw [if_neg hshort, if_neg hshort, if_neg hshort, List.take_of_length_le hRlen]


/-! ## Claim C6 -/

/-- Claim C6 fails on the code: with an empty-string post id, the recency
fallback's `!excludePostId` truthiness check skips the exclusion filter and
re-adds the current post, so the fallback output differs from stage 1 alone
even though the ids are unique. -/
theorem c6_counterexample :
    (([postEmptyId].map (fun p => p.id)).Nodup) ∧
    defaultRelatedPostsConfig.excludeCurrentPost = true ∧
    findRelatedPosts postEmptyId [postEmptyId] defaultRelatedPostsConfig = [] ∧
    getRelatedPostsWithFallback postEmptyId [postEmptyId] defaultRelatedPostsConfig
      = [postEmptyId] ∧
    getRelatedPostsWithFallback postEmptyId [postEmptyId] defaultRelatedPostsConfig
      ≠ findRelatedPosts postEmptyId [postEmptyId] defaultRelatedPostsConfig := by
  refine ⟨by decide, by decide, by decide, by decide, by decide⟩

/-- Claim C6 (amended): for every collection with unique post ids, every
current post whose id is non-empty, and every configuration,
getRelatedPostsWithFallback returns exactly the sequence of findRelatedPosts
alone — whenever stage 1 undershoots maxPosts it has already selected every
candidate, so the category, tag and recency fallback stages add nothing.
(With an empty current-post id the recency stage can re-add the current post,
see the counterexample.) -/
theorem c6_amended_fallback_equals_main (currentPost : BlogPost)
    (allPosts : List BlogPost) (config : RelatedPostsConfig)
    (hids : (allPosts.map (fun p => p.id)).Nodup)
    (hid : currentPost.id ≠ "") :
    getRelatedPostsWithFallback currentPost allPosts config
      = findRelatedPosts currentPost allPosts config :=
  getRelatedPostsWithFallback_eq currentPost allPosts config hid

/-- Witness for the amended Claim C6 at a two-post collection. -/
theorem c6_amended_fallback_equals_main_witness :
    (([postReact, postFull].map (fun p => p.id)).Nodup ∧ postReact.id ≠ "") ∧
    getRelatedPostsWithFallback postReact [postReact, postFull] defaultRelatedPostsConfig
      = findRelatedPosts postReact [postReact, postFull] defaultRelatedPostsConfig :=
  ⟨⟨by decide, by decide⟩,
    c6_amended_fallback_equals_main postReact [postReact, postFull]
      defaultRelatedPostsConfig (by decide) (by decide)⟩

/-! ## Claim C10 -/

/-- Claim C10 fails on the code: with an empty-string current-post id and
excludeCurrentPost = true, the recency fallback re-adds the current post to
the selection. -/
theorem c10_counterexample :
    (([postEmptyId].map (fun p => p.id)).Nodup) ∧
    defaultRelatedPostsConfig.excludeCurrentPost = true ∧
    postEmptyId ∈ getRelatedPostsWithFallback postEmptyId [postEmptyId]
      defaultRelatedPostsConfig := by
  refine ⟨by decide, by decide, by decide⟩

/-- Claim C10 (amended): for every collection with unique post ids, the
fallback selection has length at most maxPosts and duplicate-free ids, and —
when excludeCurrentPost is true and the current post's id is non-empty —
never contains a post with the current post's id.  (With an empty current
id the recency fallback can re-add the current post, see the
counterexample.) -/
theorem c10_amended_selection_contract (currentPost : BlogPost)
    (allPosts : List BlogPost) (config : RelatedPostsConfig)
    (hids : (allPosts.map (fun p => p.id)).Nodup) :
    (getRelatedPostsWithFallback currentPost allPosts config).length ≤ config.maxPosts ∧
    ((getRelatedPostsWithFallback currentPost allPosts config).map (fun p => p.id)).Nodup ∧
    (config.excludeCurrentPost = true → currentPost.id ≠ "" →
      ∀ p ∈ getRelatedPostsWithFallback currentPost allPosts config,
        p.id ≠ currentPost.id) := by
  refine ⟨?_, ?_, ?_⟩
  · simp only [getRelatedPostsWithFallback, List.length_take]
    exact min_le_left _ _
  · simp only [getRelatedPostsWithFallback]
    set r1 := findRelatedPosts currentPost allPosts config with hr1
    set r2 := if r1.length < config.maxPosts then
        mergeStage r1 (findRelatedByCategory currentPost allPosts
          (config.maxPosts - r1.length))
      else r1 with hr2
    set r3 := if r2.length < config.maxPosts then
        mergeStage r2 (findRelatedByTags currentPost allPosts
          (config.maxPosts - r2.length))
      else r2 with hr3
    set r4 := if r3.length < config.maxPosts then
        mergeStage r3 (findRecentPosts allPosts currentPost.id
          (config.maxPosts - r3.length))
      else r3 with hr4
    have h1 : (r1.map (fun p => p.id)).Nodup := by
      rw [hr1]; exact ids_nodup_findRelatedPosts currentPost allPosts config hids
    have h2 : (r2.map (fun p => p.id)).Nodup := by
      rw [hr2]
      split_ifs
      · exact ids_nodup_mergeStage h1
          (ids_nodup_findRelatedByCategory currentPost allPosts _ hids)
      · exact h1
    have h3 : (r3.map (fun p => p.id)).Nodup := by
      rw [hr3]
      split_ifs
      · exact ids_nodup_mergeStage h2
          (ids_nodup_findRelatedByTags currentPost allPosts _ hids)
      · exact h2
    have h4 : (r4.map (fun p => p.id)).Nodup := by
      rw [hr4]
      split_ifs
      · exact ids_nodup_mergeStage h3 (ids_nodup_findRecentPosts allPosts _ _ hids)
      · exact h3
    exact List.Nodup.sublist (List.Sublist.map _ (List.take_sublist _ _)) h4
  · intro hexc hid p hp
    simp only [getRelatedPostsWithFallback] at hp
    set r1 := findRelatedPosts currentPost allPosts config with hr1
    set r2 := if r1.length < config.maxPosts then
        mergeStage r1 (findRelatedByCategory currentPost allPosts
          (config.maxPosts - r1.length))
      else r1 with hr2
    set r3 := if r2.length < config.maxPosts then
        mergeStage r2 (findRelatedByTags currentPost allPosts
          (config.maxPosts - r2.length))
      else r2 with hr3
    set r4 := if r3.length < config.maxPosts then
        mergeStage r3 (findRecentPosts allPosts currentPost.id
          (config.maxPosts - r3.length))
      else r3 with hr4
    have k1 : ∀ q ∈ r1, q.id ≠ currentPost.id := by
      intro q hq
      rw [hr1] at hq
      exact (mem_candidatePool_iff.mp (mem_candidates_of_mem_findRelatedPosts hq)).2 hexc
    have k2 : ∀ q ∈ r2, q.id ≠ currentPost.id := by
      intro q hq
      rw [hr2] at hq
      split_ifs at hq
      · rcases mem_mergeStage hq with h | h
        · exact k1 q h
        · exact (mem_findRelatedByCategory h).2
      · exact k1 q hq
    have k3 : ∀ q ∈ r3, q.id ≠ currentPost.id := by
      intro q hq
      rw [hr3] at hq
      split_ifs at hq
      · rcases mem_mergeStage hq with h | h
        · exact k2 q h
        · exact (mem_findRelatedByTags h).2
      · exact k2 q hq
    have k4 : ∀ q ∈ r4, q.id ≠ currentPost.id := by
      intro q hq
      rw [hr4] at hq
      split_ifs at hq
      · rcases mem_mergeStage hq with h | h
        · exact k3 q h
        · exact ((mem_findRecentPosts h).2).resolve_left hid
      · exact k3 q hq
    exact k4 p (List.mem_of_mem_take hp)

/-- Witness for the amended Claim C10 at a two-post collection. -/
theorem c10_amended_selection_contract_witness :
    (([postReact, postFull].map (fun p => p.id)).Nodup ∧
      defaultRelatedPostsConfig.excludeCurrentPost = true ∧ postReact.id ≠ "") ∧
    ((getRelatedPostsWithFallback postReact [postReact, postFull]
        defaultRelatedPostsConfig).length ≤ defaultRelatedPostsConfig.maxPosts ∧
      ((getRelatedPostsWithFallback postReact [postReact, postFull]
        defaultRelatedPostsConfig).map (fun p => p.id)).Nodup ∧
      (defaultRelatedPostsConfig.excludeCurrentPost = true → postReact.id ≠ "" →
        ∀ p ∈ getRelatedPostsWithFallback postReact [postReact, postFull]
          defaultRelatedPostsConfig, p.id ≠ postReact.id)) :=
  ⟨⟨by decide, by decide, by decide⟩,
    c10_amended_selection_contract postReact [postReact, postFull]
      defaultRelatedPostsConfig (by decide)⟩

end Blog
